import Mathlib

/-!
# Verification of the question-selection and progression engine of `trivia_app.py`

This file is a shallow embedding, in Lean 4, of the core logic of the
history-trivia application (`src/trivia_app.py`): the Question Source Adapter
(`fetch_questions_for_difficulty`), the Progression Engine
(`get_next_question`, `reset_game`, the Submit Answer handler), and the
session state they operate on.  Python strings are modelled as Lean `String`
(normalisation is carried out on their `List Char` data; `Char.toLower` and
`Char.isWhitespace` model `str.lower`/`str.strip` on the ASCII repertoire the
app manipulates), Python lists as `List`, the `st.session_state` dictionary
of pools as an association list, and the nondeterminism of `random.choice`
and of the remote API as explicit oracle parameters (a pick index and a
fetch function / outcome), universally quantified in the theorems.
-/

/-! ## String normalisation as performed by the Submit Answer handler -/

/-- Model of Python `str.lower` on the character data of a string
(`Char.toLower`, which agrees with Python on ASCII). -/
def pyLower (l : List Char) : List Char := l.map Char.toLower

/-- Model of Python `str.strip` on character data: drop whitespace from both
ends (`Char.isWhitespace` covers the whitespace the app encounters). -/
def stripChars (l : List Char) : List Char :=
  ((l.dropWhile Char.isWhitespace).reverse.dropWhile Char.isWhitespace).reverse

/-- Model of the Python substring test `a in b` (for strings): `a` occurs
contiguously inside `b`. -/
def isSubstringOf (a : List Char) : List Char → Bool
  | [] => a.isPrefixOf []
  | c :: rest => a.isPrefixOf (c :: rest) || isSubstringOf a rest

/-- The grading test of the Submit Answer handler (`trivia_app.py`
lines 167 and 170-177).  The user input is stripped when read from the text
box (line 167); both strings are then lowercased (lines 171-172, note that
the correct answer is NOT stripped); the result is
`normalized_user_answer == normalized_correct_answer or
 (len(normalized_user_answer) > len(normalized_correct_answer) * 0.5 and
  normalized_correct_answer in normalized_user_answer)` (lines 176-177).
Since `0.5` is exact in binary floating point and the lengths are machine
integers far below 2^53, `len(u) > len(c) * 0.5` holds exactly when
`2 * len(u) > len(c)`, which is how the comparison is rendered here. -/
def grade_answer (raw : String) (answer : String) : Bool :=
  let user_answer := stripChars raw.data
  let normalized_user_answer := pyLower user_answer
  let normalized_correct_answer := pyLower answer.data
  decide (normalized_user_answer = normalized_correct_answer) ||
    (decide (2 * normalized_user_answer.length > normalized_correct_answer.length) &&
      isSubstringOf normalized_correct_answer normalized_user_answer)

/-- Normalisation in the words of the specification claim: lowercase AND trim. -/
def claimNormalize (s : String) : List Char := pyLower (stripChars s.data)

/-- C2 as the claim states it: the input is correct iff the lowercased,
trimmed input equals the lowercased, trimmed correct answer, or the
normalized correct answer is a substring of the normalized input and the
normalized input's length exceeds half the normalized correct answer's
length. -/
def claimGrade (input answer : String) : Prop :=
  claimNormalize input = claimNormalize answer ∨
    (claimNormalize answer <:+: claimNormalize input ∧
      ((claimNormalize input).length : ℚ) > ((claimNormalize answer).length : ℚ) / 2)

/-- C2 amended: the same policy, except that the correct answer is only
lowercased, never trimmed (the code strips the user input alone). -/
def amendedGrade (input answer : String) : Prop :=
  claimNormalize input = pyLower answer.data ∨
    (pyLower answer.data <:+: claimNormalize input ∧
      ((claimNormalize input).length : ℚ) > ((pyLower answer.data).length : ℚ) / 2)

/-! ## The Question Source Adapter (`fetch_questions_for_difficulty`, lines 35-69)

The network interaction is modelled by an explicit `FetchOutcome` oracle:
either the transport fails (any `requests.exceptions.RequestException`,
including the `HTTPError` raised by `raise_for_status` — connection,
timeout, DNS, bad HTTP status), or a JSON body with a `response_code` and a
list of raw result records is obtained.  `html.unescape` is an external
library function and is passed in as an opaque parameter `unesc`.  The two
`st.error` calls (lines 65 and 68) are side effects on the page, not return
values; they are modelled by the second component of the result pair, while
the first component is the value the Python function actually returns. -/

/-- One raw record of the remote API response (the fields the code reads). -/
structure RawQuestion where
  question : String
  correct_answer : String
  category : String
  difficulty : String
deriving DecidableEq, Repr

/-- Outcome of the HTTP request issued on line 48 (after `raise_for_status`
and JSON decoding): transport/HTTP failure, or a decoded body. -/
inductive FetchOutcome where
  | transportFailure : FetchOutcome
  | response (code : Nat) (results : List RawQuestion) : FetchOutcome
deriving DecidableEq, Repr

/-- The two `st.error` messages the Adapter can emit: the network-error
message of line 68 and the API-error message of line 65, which carries the
response code. -/
inductive ErrMsg where
  | network : ErrMsg
  | apiError (code : Nat) : ErrMsg
deriving DecidableEq, Repr

/-- A processed question record as built on lines 57-62. -/
structure Question where
  question : String
  answer : String
  difficulty : Nat
  id : String
deriving DecidableEq, Repr

/-- `DIFFICULTY_MAP` (lines 11-15): our difficulty levels to the remote
vocabulary; `DIFFICULTY_MAP.get` yields `None` off the three levels. -/
def DIFFICULTY_MAP : Nat → Option String
  | 1 => some "easy"
  | 2 => some "medium"
  | 3 => some "hard"
  | _ => none

/-- `fetch_questions_for_difficulty` (lines 35-69).  Returns the list the
Python function returns together with the `st.error` message it displays, if
any.  Unsupported levels return `[]` before any request (lines 37-39); a
transport failure returns `[]` with the network message (lines 67-69); a
body with `response_code == 0` returns the processed records (lines 51-63);
any other response code returns `[]` with the API message (lines 64-66). -/
def fetch_questions_for_difficulty (unesc : String → String) (difficulty_level : Nat)
    (outcome : FetchOutcome) : List Question × Option ErrMsg :=
  match DIFFICULTY_MAP difficulty_level with
  | none => ([], none)
  | some _ =>
    match outcome with
    | .transportFailure => ([], some .network)
    | .response code results =>
      if code = 0 then
        (results.map (fun q =>
          { question := unesc q.question
            answer := unesc q.correct_answer
            difficulty := difficulty_level
            id := q.category ++ "-" ++ q.difficulty ++ "-" ++ unesc q.question }), none)
      else ([], some (.apiError code))

/-! ## Session state and the Progression Engine -/

/-- The session state (lines 19-32): `current_difficulty`, `score`,
`feedback_message`, `asked_questions_ids`, `current_question_data`,
`all_fetched_questions` (a difficulty-to-pool dictionary, modelled as an
association list), `game_started`. -/
structure GameState where
  current_difficulty : Nat
  score : Nat
  feedback_message : String
  asked_questions_ids : List String
  current_question_data : Option Question
  all_fetched_questions : List (Nat × List Question)
  game_started : Bool
deriving DecidableEq, Repr

/-- The initial session state (lines 19-32). -/
def initState : GameState :=
  { current_difficulty := 1
    score := 0
    feedback_message := ""
    asked_questions_ids := []
    current_question_data := none
    all_fetched_questions := []
    game_started := false }

/-- A freshly started session (as after line 134, before the first
`get_next_question`). -/
def startedState : GameState := { initState with game_started := true }

/-- Dictionary lookup (`d in dict` / `dict[d]` / `dict.get(d)`). -/
def dlookup : List (Nat × List Question) → Nat → Option (List Question)
  | [], _ => none
  | (k, v) :: rest, d => if k = d then some v else dlookup rest d

/-- Dictionary update `dict[d] = v` (replaces the binding or appends it). -/
def dinsert : List (Nat × List Question) → Nat → List Question → List (Nat × List Question)
  | [], d, v => [(d, v)]
  | (k, w) :: rest, d, v => if k = d then (d, v) :: rest else (k, w) :: dinsert rest d v

/-- Python `list.remove(q)`: drop the first element equal to `q` (the call
site always removes an element known to be present). -/
def removeFirst : List Question → Question → List Question
  | [], _ => []
  | x :: rest, q => if x = q then rest else x :: removeFirst rest q

/-- The pool stored for difficulty `d`, with `[]` when absent
(`st.session_state.all_fetched_questions.get(d, [])`). -/
def poolAt (s : GameState) (d : Nat) : List Question :=
  (dlookup s.all_fetched_questions d).getD []

/-- Feedback of line 96 (fetch produced nothing). -/
def msgCouldNotFetch : String := "Could not fetch questions. Please try restarting the game."

/-- Feedback of line 90 (fetched batch was entirely already asked). -/
def msgNoNew : String := "No new questions found at this difficulty. Trying to find more or moving on."

/-- Feedback of line 110 (advancing to the next difficulty). -/
def msgExhausted : String := "All questions at current difficulty exhausted. Moving to next difficulty."

/-- Feedback of line 116 (all questions answered; apostrophe of the source
text elided). -/
def msgAllDone : String := "You have answered all available questions! Click Restart to play again."

/-- Feedback of line 179 (emoji suffix of the source text elided). -/
def msgCorrect : String := "Correct!"

/-- Feedback of line 183 (emoji suffix of the source text elided). -/
def msgIncorrect (answer : String) : String :=
  "Incorrect. The correct answer was: **" ++ answer ++ "**"

/-- Lines 79-98 of `get_next_question`: make sure a pool exists for the
current difficulty.  `Except.error` is the early `return` of line 98 (the
fetch produced nothing: feedback set, `current_question_data` cleared);
`Except.ok` continues with the possibly refilled state.  When the fetched
batch is non-empty but contains no unasked question, only the feedback
message is set and the pool is left as it was (lines 88-94). -/
def ensurePool (f : Nat → List Question) (s : GameState) : Except GameState GameState :=
  if (poolAt s s.current_difficulty).isEmpty then
    let new_questions := f s.current_difficulty
    if new_questions.isEmpty then
      .error { s with feedback_message := msgCouldNotFetch, current_question_data := none }
    else
      let fresh_questions :=
        new_questions.filter (fun q => decide (q.id ∉ s.asked_questions_ids))
      if fresh_questions.isEmpty then
        .ok { s with feedback_message := msgNoNew }
      else
        .ok { s with all_fetched_questions := dinsert s.all_fetched_questions s.current_difficulty fresh_questions }
  else
    .ok s

/-- Lines 100-104: the questions of the current pool not yet asked. -/
def availableOf (s : GameState) : List Question :=
  (poolAt s s.current_difficulty).filter (fun q => decide (q.id ∉ s.asked_questions_ids))

/-- Lines 120-124: serve `q` — record it as the current question, append its
id to `asked_questions_ids`, and remove it from the current pool. -/
def serveQ (s : GameState) (q : Question) : GameState :=
  { s with current_question_data := some q
           asked_questions_ids := s.asked_questions_ids ++ [q.id]
           all_fetched_questions :=
             dinsert s.all_fetched_questions s.current_difficulty
               (removeFirst (poolAt s s.current_difficulty) q) }

/-- Lines 109-111: move to the next difficulty (capped at 3). -/
def advanceState (s : GameState) : GameState :=
  { s with feedback_message := msgExhausted
           current_difficulty := min (s.current_difficulty + 1) 3 }

/-- Lines 114-118: every difficulty exhausted — the game-over transition. -/
def gameOverState (s : GameState) : GameState :=
  { s with feedback_message := msgAllDone
           current_question_data := none
           game_started := false }

/-- `get_next_question` (lines 71-124), with the bounded self-recursion of
line 112 made structural on a fuel argument.  `random.choice` is modelled by
an arbitrary pick index `p`, reduced modulo the length of the available
list; the adapter is the oracle `f` giving the batch each level's fetch
would return.  Fuel `3` is enough for every state whose difficulty is in
{1,2,3} (established by `get_next_question_aux_fuel`), so the fuel-out case
is unreachable from the call sites. -/
def get_next_question_aux : Nat → (Nat → List Question) → Nat → GameState → GameState
  | 0, _, _, s => s
  | fuel + 1, f, p, s =>
    match ensurePool f s with
    | .error halted => halted
    | .ok s1 =>
      match (availableOf s1)[p % (availableOf s1).length]? with
      | some q => serveQ s1 q
      | none =>
        if s1.current_difficulty < 3 then
          get_next_question_aux fuel f p (advanceState s1)
        else gameOverState s1

/-- A single call to `get_next_question` as made by the app. -/
def get_next_question (f : Nat → List Question) (p : Nat) (s : GameState) : GameState :=
  get_next_question_aux 3 f p s

/-- The Submit Answer handler (lines 169-187): grade the stripped input,
update score/feedback/difficulty, then `get_next_question`.  The submit
control is only rendered while a question is displayed (line 161), so the
handler acts only on states with a current question. -/
def submit_answer (f : Nat → List Question) (p : Nat) (inp : String) (s : GameState) :
    GameState :=
  match s.current_question_data with
  | none => s
  | some qd =>
    get_next_question f p
      (if grade_answer inp qd.answer then
        { s with score := s.score + 1
                 feedback_message := msgCorrect
                 current_difficulty := min (s.current_difficulty + 1) 3 }
      else
        { s with feedback_message := msgIncorrect qd.answer })

/-- `reset_game` (lines 126-135): reset every session variable, mark the
game started, then immediately fetch the first question. -/
def reset_game (f : Nat → List Question) (p : Nat) (_s : GameState) : GameState :=
  get_next_question f p startedState

/-! ## Operations, traces and reachability -/

/-- One user-triggered operation of the engine, carrying the oracle data
(adapter batches and pick index) consumed during that operation. -/
inductive Step where
  | reset (f : Nat → List Question) (p : Nat) : Step
  | next (f : Nat → List Question) (p : Nat) : Step
  | submit (f : Nat → List Question) (p : Nat) (inp : String) : Step

/-- The adapter oracle an operation uses. -/
def stepFetch : Step → (Nat → List Question)
  | .reset f _ => f
  | .next f _ => f
  | .submit f _ _ => f

/-- The state transformation of one operation. -/
def stepState : Step → GameState → GameState
  | .reset f p, s => reset_game f p s
  | .next f p, s => get_next_question f p s
  | .submit f p inp, s => submit_answer f p inp s

/-- Run a sequence of operations from a state. -/
def runSteps (ops : List Step) (s : GameState) : GameState :=
  ops.foldl (fun s op => stepState op s) s

/-- A session state is reachable when some operation sequence produces it
from the initial state. -/
def Reachable (s : GameState) : Prop :=
  ∃ ops : List Step, runSteps ops initState = s

/-- Reachability through operations all satisfying `P`. -/
def ReachableVia (P : Step → Prop) (s : GameState) : Prop :=
  ∃ ops : List Step, (∀ st ∈ ops, P st) ∧ runSteps ops initState = s

/-- Pool exhaustion at the current level: after the refill step of lines
79-98 succeeds, no unasked question is available at the current difficulty
(this is exactly the condition guarding the advance of lines 109-112). -/
def exhaustedAt (f : Nat → List Question) (s : GameState) : Prop :=
  ∃ s1, ensurePool f s = Except.ok s1 ∧ availableOf s1 = []

/-- A well-behaved adapter oracle with respect to question ids: each batch
has pairwise-distinct ids, and the level of a question can be read off its
id (`lvl`), so no id ever occurs at two different difficulty levels.  (For
the real remote source the id embeds the difficulty string, line 61.) -/
def GoodFetch (lvl : String → Nat) (f : Nat → List Question) : Prop :=
  ∀ d, (f d).Pairwise (fun a b => a.id ≠ b.id) ∧ ∀ q ∈ f d, lvl q.id = d

/-- A step whose adapter oracle is well-behaved. -/
def GoodStep (lvl : String → Nat) (st : Step) : Prop := GoodFetch lvl (stepFetch st)

/-- The pools/askedIds invariant (strengthened): every pooled question is
unasked and sits at the level its id denotes, and every pool has
pairwise-distinct ids. -/
def PoolInv (lvl : String → Nat) (s : GameState) : Prop :=
  (∀ d q, q ∈ poolAt s d → q.id ∉ s.asked_questions_ids ∧ lvl q.id = d) ∧
  (∀ d, (poolAt s d).Pairwise (fun a b => a.id ≠ b.id))

/-! ## Concrete oracles and states used in the closed scenario theorems -/

/-- An adapter whose every batch is empty. -/
def emptyFetch : Nat → List Question := fun _ => []

/-- The adapter induced by `fetch_questions_for_difficulty` over an outcome
oracle: the engine consumes exactly the list the Python function returns. -/
def adapterOf (unesc : String → String) (oc : Nat → FetchOutcome) : Nat → List Question :=
  fun d => (fetch_questions_for_difficulty unesc d (oc d)).1

/-- A level-1 question. -/
def qEasy : Question := { question := "QA", answer := "A1", difficulty := 1, id := "id-a" }

/-- A level-2 question. -/
def qMedium : Question := { question := "QB", answer := "A2", difficulty := 2, id := "id-b" }

/-- A level-3 question. -/
def qHard : Question := { question := "QC", answer := "A3", difficulty := 3, id := "id-c" }

/-- An adapter returning one question per level. -/
def staleFetch : Nat → List Question :=
  fun d => if d = 1 then [qEasy] else if d = 2 then [qMedium] else if d = 3 then [qHard] else []

/-- A session that has already asked the level-1 and level-2 questions. -/
def staleState : GameState := { startedState with asked_questions_ids := ["id-a", "id-b"] }

/-- An adapter with questions only at level 3. -/
def onlyHardFetch : Nat → List Question := fun d => if d = 3 then [qHard] else []

/-- A further level-1 question. -/
def qOne : Question := { question := "Q1", answer := "W1", difficulty := 1, id := "w1" }

/-- Another level-1 question, distinct id. -/
def qTwo : Question := { question := "Q2", answer := "W2", difficulty := 1, id := "w2" }

/-- An adapter with a single level-1 question. -/
def oneEasyFetch : Nat → List Question := fun d => if d = 1 then [qOne] else []

/-- An adapter with two distinct level-1 questions. -/
def twoEasyFetch : Nat → List Question := fun d => if d = 1 then [qOne, qTwo] else []

/-- An adapter whose level-1 batch contains the same question twice
(duplicate id), as the remote source may produce (the id is derived from
text and metadata and is not guaranteed unique). -/
def dupFetch : Nat → List Question := fun d => if d = 1 then [qOne, qOne] else []

/-- An arbitrary mid-game session state. -/
def junkState : GameState :=
  { current_difficulty := 3
    score := 5
    feedback_message := "x"
    asked_questions_ids := ["z"]
    current_question_data := some qOne
    all_fetched_questions := [(2, [qHard])]
    game_started := true }

/-- The id-to-level assignment for the witness adapters above. -/
def levelOfW : String → Nat := fun _ => 1

theorem isSubstringOf_iff (a b : List Char) : isSubstringOf a b = true ↔ a <:+: b := by
  induction b with
  | nil =>
    simp [isSubstringOf, List.isPrefixOf_iff_prefix]
  | cons c rest ih =>
    rw [ List.infix_cons_iff]
    simp [isSubstringOf, List.isPrefixOf_iff_prefix, ih]

theorem length_ratio_iff (n m : Nat) : (n : ℚ) > (m : ℚ) / 2 ↔ 2 * n > m := by
  rw [gt_iff_lt, div_lt_iff₀ (by norm_num : (0:ℚ) < 2)]
  rw [show ((n:ℚ) * 2) = ((2 * n : ℕ) : ℚ) by push_cast; ring]
  exact_mod_cast Iff.rfl

/-- C2 (amended): for every user input and every current question, the code
grades the input correct iff the lowercased, trimmed input equals the
lowercased (but NOT trimmed) correct answer, or the lowercased correct
answer is a substring of the normalized input and the normalized input's
length exceeds half the lowercased correct answer's length. -/
theorem grade_answer_eq_amended (input answer : String) :
    grade_answer input answer = true ↔ amendedGrade input answer := by
  unfold grade_answer amendedGrade claimNormalize
  simp only [Bool.or_eq_true, Bool.and_eq_true, decide_eq_true_eq, isSubstringOf_iff]
  rw [length_ratio_iff]
  tauto

/-- C2 (counterexample): the claim normalizes BOTH strings by trimming, the
code trims only the user input — with correct answer "a " (trailing space)
and input "a" the claim grades correct while the code grades incorrect. -/
theorem grade_answer_claim_cex :
    grade_answer "a" "a " = false ∧ claimGrade "a" "a " := by
  refine ⟨by decide, Or.inl ?_⟩
  decide

/-- C10: for every current question whose correct answer is non-empty after
normalization (lowercasing), submitting an empty or whitespace-only input is
graded incorrect: the stripped input is empty, which neither equals the
non-empty normalized answer nor passes the length-ratio test, since 0 is not
greater than half of a non-negative length while the substring test cannot
rescue it. -/
theorem whitespace_input_graded_incorrect (input answer : String)
    (hws : ∀ c ∈ input.data, c.isWhitespace = true)
    (hne : pyLower answer.data ≠ []) :
    grade_answer input answer = false := by
  have h0 : input.data.dropWhile Char.isWhitespace = [] :=
    List.dropWhile_eq_nil_iff.mpr hws
  have hstrip : stripChars input.data = [] := by
    unfold stripChars
    rw [h0]
    simp
  have h2 : answer.data ≠ [] := by
    simpa [pyLower] using hne
  unfold grade_answer
  rw [hstrip]
  simp [pyLower, h2]

/-- C10 (witness): two spaces against the answer "X". -/
theorem whitespace_input_witness : grade_answer "  " "X" = false :=
  whitespace_input_graded_incorrect "  " "X" (by decide) (by decide)

theorem dlookup_dinsert_self (m : List (Nat × List Question)) (d : Nat) (v : List Question) :
    dlookup (dinsert m d v) d = some v := by
  induction m with
  | nil => simp [dinsert, dlookup]
  | cons kv rest ih =>
    obtain ⟨k, w⟩ := kv
    by_cases h : k = d <;> simp [dinsert, dlookup, h, ih]

theorem dlookup_dinsert_ne (m : List (Nat × List Question)) (d d' : Nat) (v : List Question)
    (h : d' ≠ d) : dlookup (dinsert m d v) d' = dlookup m d' := by
  induction m with
  | nil => simp [dinsert, dlookup, Ne.symm h]
  | cons kv rest ih =>
    obtain ⟨k, w⟩ := kv
    by_cases hk : k = d
    · subst hk
      simp [dinsert, dlookup, Ne.symm h]
    · by_cases hk' : k = d' <;> simp [dinsert, dlookup, hk, hk', h, ih]

theorem removeFirst_sublist (l : List Question) (q : Question) :
    List.Sublist (removeFirst l q) l := by
  induction l with
  | nil => simp [removeFirst]
  | cons x rest ih =>
    by_cases h : x = q
    · simp [removeFirst, h]
    · simpa [removeFirst, h] using ih.cons₂ x

theorem mem_removeFirst {l : List Question} {q x : Question} (h : x ∈ removeFirst l q) :
    x ∈ l := (removeFirst_sublist l q).subset h

theorem removeFirst_id_ne {l : List Question} {q : Question}
    (hp : l.Pairwise (fun a b => a.id ≠ b.id)) (hq : q ∈ l) :
    ∀ x ∈ removeFirst l q, x.id ≠ q.id := by
  induction l with
  | nil => simp [removeFirst]
  | cons y rest ih =>
    rw [List.pairwise_cons] at hp
    obtain ⟨hy, hrest⟩ := hp
    intro x hx
    by_cases h : y = q
    · simp only [removeFirst, if_pos h] at hx
      intro he
      exact hy x hx (by rw [h]; exact he.symm)
    · have hqr : q ∈ rest := by
        rcases List.mem_cons.mp hq with heq | hmem
        · exact absurd heq.symm h
        · exact hmem
      simp only [removeFirst, if_neg h, List.mem_cons] at hx
      rcases hx with rfl | hx
      · exact hy q hqr
      · exact ih hrest hqr x hx

theorem getElem_mod_none {l : List Question} {p : Nat} (h : l[p % l.length]? = none) :
    l = [] := by
  rcases l with _ | ⟨x, xs⟩
  · rfl
  · exfalso
    rw [List.getElem?_eq_none_iff] at h
    have : p % (x :: xs).length < (x :: xs).length := Nat.mod_lt _ (by simp)
    omega

theorem getElem_mod_some {l : List Question} {p : Nat} {q : Question}
    (h : l[p % l.length]? = some q) : q ∈ l := List.getElem?_mem h

theorem ensurePool_error {f : Nat → List Question} {s sE : GameState}
    (h : ensurePool f s = .error sE) :
    sE = { s with feedback_message := msgCouldNotFetch, current_question_data := none } := by
  unfold ensurePool at h
  split at h
  · simp only [] at h
    split at h
    · simp only [Except.error.injEq] at h
      exact h.symm
    · split at h <;> simp at h
  · simp at h

theorem ensurePool_ok_fields {f : Nat → List Question} {s s1 : GameState}
    (h : ensurePool f s = .ok s1) :
    s1.current_difficulty = s.current_difficulty ∧
    s1.asked_questions_ids = s.asked_questions_ids ∧
    s1.score = s.score ∧
    s1.game_started = s.game_started ∧
    s1.current_question_data = s.current_question_data := by
  unfold ensurePool at h
  split at h
  · simp only [] at h
    split at h
    · simp at h
    · split at h <;> (simp only [Except.ok.injEq] at h; subst h; exact ⟨rfl, rfl, rfl, rfl, rfl⟩)
  · simp only [Except.ok.injEq] at h
    subst h
    exact ⟨rfl, rfl, rfl, rfl, rfl⟩

theorem ensurePool_ok_pools {f : Nat → List Question} {s s1 : GameState}
    (h : ensurePool f s = .ok s1) :
    s1.all_fetched_questions = s.all_fetched_questions ∨
    (poolAt s s.current_difficulty = [] ∧
      s1.all_fetched_questions = dinsert s.all_fetched_questions s.current_difficulty
        ((f s.current_difficulty).filter (fun q => decide (q.id ∉ s.asked_questions_ids)))) := by
  unfold ensurePool at h
  split at h
  · rename_i hPool
    simp only [] at h
    split at h
    · simp at h
    · split at h
      · simp only [Except.ok.injEq] at h
        subst h
        exact Or.inl rfl
      · simp only [Except.ok.injEq] at h
        subst h
        exact Or.inr ⟨List.isEmpty_iff.mp hPool, rfl⟩
  · simp only [Except.ok.injEq] at h
    subst h
    exact Or.inl rfl

theorem get_next_question_aux_succ (fuel : Nat) (f : Nat → List Question) (p : Nat)
    (s : GameState) :
    get_next_question_aux (fuel + 1) f p s =
      match ensurePool f s with
      | .error halted => halted
      | .ok s1 =>
        match (availableOf s1)[p % (availableOf s1).length]? with
        | some q => serveQ s1 q
        | none =>
          if s1.current_difficulty < 3 then
            get_next_question_aux fuel f p (advanceState s1)
          else gameOverState s1 := rfl

theorem gnq_d_mono (fuel : Nat) (f : Nat → List Question) (p : Nat) (s : GameState) :
    s.current_difficulty ≤ (get_next_question_aux fuel f p s).current_difficulty := by
  induction fuel generalizing s with
  | zero => simp [get_next_question_aux]
  | succ fuel ih =>
    rw [get_next_question_aux_succ]
    cases hE : ensurePool f s with
    | error halted =>
      simp [ensurePool_error hE]
    | ok s1 =>
      obtain ⟨hd, -, -, -, -⟩ := ensurePool_ok_fields hE
      cases hA : (availableOf s1)[p % (availableOf s1).length]? with
      | some q => simp only [hA, serveQ, hd]; omega
      | none =>
        simp only [hA]
        by_cases h3 : s1.current_difficulty < 3
        · simp only [if_pos h3]
          have h4 := ih (advanceState s1)
          have h5 : (advanceState s1).current_difficulty = min (s1.current_difficulty + 1) 3 :=
            rfl
          omega
        · simp only [if_neg h3, gameOverState]
          omega

theorem gnq_d_le3 (fuel : Nat) (f : Nat → List Question) (p : Nat) (s : GameState)
    (h : s.current_difficulty ≤ 3) :
    (get_next_question_aux fuel f p s).current_difficulty ≤ 3 := by
  induction fuel generalizing s with
  | zero => simpa [get_next_question_aux]
  | succ fuel ih =>
    rw [get_next_question_aux_succ]
    cases hE : ensurePool f s with
    | error halted =>
      simpa [ensurePool_error hE]
    | ok s1 =>
      obtain ⟨hd, -, -, -, -⟩ := ensurePool_ok_fields hE
      cases hA : (availableOf s1)[p % (availableOf s1).length]? with
      | some q => simp only [hA, serveQ, hd]; omega
      | none =>
        simp only [hA]
        by_cases h3 : s1.current_difficulty < 3
        · simp only [if_pos h3]
          apply ih
          have h5 : (advanceState s1).current_difficulty = min (s1.current_difficulty + 1) 3 :=
            rfl
          omega
        · simp only [if_neg h3, gameOverState]
          omega

theorem mem_availableOf {s : GameState} {q : Question} (h : q ∈ availableOf s) :
    q ∈ poolAt s s.current_difficulty ∧ q.id ∉ s.asked_questions_ids := by
  unfold availableOf at h
  obtain ⟨h1, h2⟩ := List.mem_filter.mp h
  exact ⟨h1, of_decide_eq_true h2⟩

theorem gnq_asked_nodup (fuel : Nat) (f : Nat → List Question) (p : Nat) (s : GameState)
    (h : s.asked_questions_ids.Nodup) :
    (get_next_question_aux fuel f p s).asked_questions_ids.Nodup := by
  induction fuel generalizing s with
  | zero => simpa [get_next_question_aux]
  | succ fuel ih =>
    rw [get_next_question_aux_succ]
    cases hE : ensurePool f s with
    | error halted =>
      simpa [ensurePool_error hE]
    | ok s1 =>
      obtain ⟨-, ha, -, -, -⟩ := ensurePool_ok_fields hE
      cases hA : (availableOf s1)[p % (availableOf s1).length]? with
      | some q =>
        have hq := mem_availableOf (getElem_mod_some hA)
        simp only [hA, serveQ]
        rw [List.nodup_append]
        refine ⟨ha ▸ h, List.nodup_singleton _, ?_⟩
        intro x hx hx1
        rw [List.mem_singleton] at hx1
        subst hx1
        exact hq.2 hx
      | none =>
        simp only [hA]
        by_cases h3 : s1.current_difficulty < 3
        · simp only [if_pos h3]
          exact ih _ (by simpa [advanceState] using ha ▸ h)
        · simp only [if_neg h3, gameOverState]
          simpa using ha ▸ h

theorem gnq_d_change_exhausted (fuel : Nat) (f : Nat → List Question) (p : Nat) (s : GameState)
    (h : (get_next_question_aux fuel f p s).current_difficulty ≠ s.current_difficulty) :
    exhaustedAt f s := by
  cases fuel with
  | zero => simp [get_next_question_aux] at h
  | succ fuel =>
    rw [get_next_question_aux_succ] at h
    cases hE : ensurePool f s with
    | error halted =>
      rw [hE] at h
      simp [ensurePool_error hE] at h
    | ok s1 =>
      rw [hE] at h
      simp only [] at h
      obtain ⟨hd, -, -, -, -⟩ := ensurePool_ok_fields hE
      cases hA : (availableOf s1)[p % (availableOf s1).length]? with
      | some q =>
        rw [hA] at h
        simp [serveQ, hd] at h
      | none =>
        exact ⟨s1, hE, getElem_mod_none hA⟩

theorem gnq_fuel_step (fuel : Nat) (f : Nat → List Question) (p : Nat) :
    ∀ s : GameState, 1 ≤ s.current_difficulty → s.current_difficulty ≤ 3 →
      4 ≤ fuel + s.current_difficulty →
      get_next_question_aux (fuel + 1) f p s = get_next_question_aux fuel f p s := by
  induction fuel with
  | zero =>
    intro s h1 h3 h4
    omega
  | succ fuel ih =>
    intro s h1 h3 h4
    rw [get_next_question_aux_succ (fuel + 1), get_next_question_aux_succ fuel]
    cases hE : ensurePool f s with
    | error halted => rfl
    | ok s1 =>
      cases hA : (availableOf s1)[p % (availableOf s1).length]? with
      | some q => simp only [hA]
      | none =>
        simp only [hA]
        obtain ⟨hd, -, -, -, -⟩ := ensurePool_ok_fields hE
        by_cases hlt : s1.current_difficulty < 3
        · simp only [if_pos hlt]
          have h5 : (advanceState s1).current_difficulty = min (s1.current_difficulty + 1) 3 :=
            rfl
          exact ih (advanceState s1) (by omega) (by omega) (by omega)
        · simp only [if_neg hlt]

theorem gnq_fuel_ge3 (k : Nat) (f : Nat → List Question) (p : Nat) (s : GameState)
    (h1 : 1 ≤ s.current_difficulty) (h3 : s.current_difficulty ≤ 3) :
    get_next_question_aux (3 + k) f p s = get_next_question_aux 3 f p s := by
  induction k with
  | zero => rfl
  | succ k ih =>
    have hstep := gnq_fuel_step (3 + k) f p s h1 h3 (by omega)
    calc get_next_question_aux (3 + (k + 1)) f p s
        = get_next_question_aux ((3 + k) + 1) f p s := rfl
      _ = get_next_question_aux (3 + k) f p s := hstep
      _ = get_next_question_aux 3 f p s := ih

theorem gnq_aux_error {fuel : Nat} {f : Nat → List Question} {p : Nat} {s halted : GameState}
    (hE : ensurePool f s = .error halted) :
    get_next_question_aux (fuel + 1) f p s = halted := by
  rw [get_next_question_aux_succ, hE]

theorem gnq_aux_ok_some {fuel : Nat} {f : Nat → List Question} {p : Nat} {s s1 : GameState}
    {q : Question} (hE : ensurePool f s = .ok s1)
    (hA : (availableOf s1)[p % (availableOf s1).length]? = some q) :
    get_next_question_aux (fuel + 1) f p s = serveQ s1 q := by
  rw [get_next_question_aux_succ, hE]
  simp only []
  rw [hA]

theorem gnq_aux_ok_none_lt {fuel : Nat} {f : Nat → List Question} {p : Nat} {s s1 : GameState}
    (hE : ensurePool f s = .ok s1)
    (hA : (availableOf s1)[p % (availableOf s1).length]? = none)
    (hlt : s1.current_difficulty < 3) :
    get_next_question_aux (fuel + 1) f p s =
      get_next_question_aux fuel f p (advanceState s1) := by
  rw [get_next_question_aux_succ, hE]
  simp only []
  rw [hA]
  simp only [if_pos hlt]

theorem gnq_aux_ok_none_ge {fuel : Nat} {f : Nat → List Question} {p : Nat} {s s1 : GameState}
    (hE : ensurePool f s = .ok s1)
    (hA : (availableOf s1)[p % (availableOf s1).length]? = none)
    (hge : ¬ s1.current_difficulty < 3) :
    get_next_question_aux (fuel + 1) f p s = gameOverState s1 := by
  rw [get_next_question_aux_succ, hE]
  simp only []
  rw [hA]
  simp only [if_neg hge]

theorem gnq_flag (fuel : Nat) (f : Nat → List Question) (p : Nat) (s : GameState)
    (h3 : s.current_difficulty ≤ 3)
    (h : (get_next_question_aux fuel f p s).game_started ≠ s.game_started) :
    (get_next_question_aux fuel f p s).game_started = false ∧
    (get_next_question_aux fuel f p s).current_question_data = none ∧
    (get_next_question_aux fuel f p s).current_difficulty = 3 := by
  induction fuel generalizing s with
  | zero => simp [get_next_question_aux] at h
  | succ fuel ih =>
    cases hE : ensurePool f s with
    | error halted =>
      rw [gnq_aux_error hE] at h
      simp [ensurePool_error hE] at h
    | ok s1 =>
      obtain ⟨hd, -, -, hg, -⟩ := ensurePool_ok_fields hE
      cases hA : (availableOf s1)[p % (availableOf s1).length]? with
      | some q =>
        rw [gnq_aux_ok_some hE hA] at h
        simp [serveQ, hg] at h
      | none =>
        by_cases hlt : s1.current_difficulty < 3
        · rw [gnq_aux_ok_none_lt hE hA hlt] at h ⊢
          have h5 : (advanceState s1).current_difficulty = min (s1.current_difficulty + 1) 3 :=
            rfl
          have h6 : (advanceState s1).game_started = s.game_started := hg
          exact ih (advanceState s1) (by omega) (by rw [h6]; exact h)
        · rw [gnq_aux_ok_none_ge hE hA hlt] at h ⊢
          refine ⟨rfl, rfl, ?_⟩
          show s1.current_difficulty = 3
          omega

theorem exhaustedAt_congr {f : Nat → List Question} {s s' : GameState}
    (hd : s'.current_difficulty = s.current_difficulty)
    (hp : s'.all_fetched_questions = s.all_fetched_questions)
    (ha : s'.asked_questions_ids = s.asked_questions_ids) :
    exhaustedAt f s' ↔ exhaustedAt f s := by
  obtain ⟨d, sc, fb, ak, cq, po, gs⟩ := s
  obtain ⟨d', sc', fb', ak', cq', po', gs'⟩ := s'
  simp only at hd hp ha
  subst hd
  subst hp
  subst ha
  unfold exhaustedAt ensurePool
  simp only [availableOf, poolAt]
  split_ifs <;> simp

theorem poolInv_congr {lvl : String → Nat} {s s' : GameState}
    (hp : s'.all_fetched_questions = s.all_fetched_questions)
    (ha : s'.asked_questions_ids = s.asked_questions_ids)
    (h : PoolInv lvl s) : PoolInv lvl s' := by
  obtain ⟨h1, h2⟩ := h
  have hpool : ∀ d, poolAt s' d = poolAt s d := by
    intro d
    simp [poolAt, hp]
  constructor
  · intro d q hq
    rw [hpool d] at hq
    rw [ha]
    exact h1 d q hq
  · intro d
    rw [hpool d]
    exact h2 d

theorem ensurePool_poolInv {f : Nat → List Question} {lvl : String → Nat} {s s1 : GameState}
    (hf : GoodFetch lvl f) (hI : PoolInv lvl s) (hE : ensurePool f s = .ok s1) :
    PoolInv lvl s1 := by
  obtain ⟨-, ha, -, -, -⟩ := ensurePool_ok_fields hE
  rcases ensurePool_ok_pools hE with hsame | ⟨hempty, hinstall⟩
  · exact poolInv_congr hsame ha hI
  · have hfresh : ∀ d, poolAt s1 d =
        if d = s.current_difficulty then
          (f s.current_difficulty).filter (fun q => decide (q.id ∉ s.asked_questions_ids))
        else poolAt s d := by
      intro d
      by_cases hdd : d = s.current_difficulty
      · subst hdd
        simp [poolAt, hinstall, dlookup_dinsert_self]
      · simp [poolAt, hinstall, dlookup_dinsert_ne _ _ _ _ hdd, hdd]
    constructor
    · intro d q hq
      rw [hfresh d] at hq
      rw [ha]
      by_cases hdd : d = s.current_difficulty
      · rw [if_pos hdd] at hq
        obtain ⟨hqf, hdec⟩ := List.mem_filter.mp hq
        refine ⟨of_decide_eq_true hdec, ?_⟩
        rw [(hf s.current_difficulty).2 q hqf, hdd]
      · rw [if_neg hdd] at hq
        exact hI.1 d q hq
    · intro d
      rw [hfresh d]
      by_cases hdd : d = s.current_difficulty
      · rw [if_pos hdd]
        exact ((hf s.current_difficulty).1).sublist (List.filter_sublist _)
      · rw [if_neg hdd]
        exact hI.2 d

theorem poolAt_serveQ (s1 : GameState) (q : Question) (d : Nat) :
    poolAt (serveQ s1 q) d =
      if d = s1.current_difficulty then
        removeFirst (poolAt s1 s1.current_difficulty) q
      else poolAt s1 d := by
  unfold poolAt serveQ
  by_cases hdd : d = s1.current_difficulty
  · subst hdd
    simp [dlookup_dinsert_self, poolAt]
  · rw [if_neg hdd]
    simp only []
    rw [dlookup_dinsert_ne _ _ _ _ hdd]

theorem serveQ_poolInv {lvl : String → Nat} {s1 : GameState} {q : Question}
    (hI : PoolInv lvl s1) (hq : q ∈ availableOf s1) : PoolInv lvl (serveQ s1 q) := by
  obtain ⟨hqp, hqa⟩ := mem_availableOf hq
  have hlq : lvl q.id = s1.current_difficulty := (hI.1 _ q hqp).2
  have haq : (serveQ s1 q).asked_questions_ids = s1.asked_questions_ids ++ [q.id] := rfl
  constructor
  · intro d x hx
    rw [poolAt_serveQ] at hx
    rw [haq]
    by_cases hdd : d = s1.current_difficulty
    · rw [if_pos hdd] at hx
      have hxp : x ∈ poolAt s1 s1.current_difficulty := mem_removeFirst hx
      have hxne : x.id ≠ q.id := removeFirst_id_ne (hI.2 _) hqp x hx
      obtain ⟨hxa, hxl⟩ := hI.1 _ x hxp
      refine ⟨?_, by rw [hxl, hdd]⟩
      simp only [List.mem_append, List.mem_singleton]
      rintro (h | h)
      · exact hxa h
      · exact hxne h
    · rw [if_neg hdd] at hx
      obtain ⟨hxa, hxl⟩ := hI.1 d x hx
      have hxne : x.id ≠ q.id := by
        intro he
        exact hdd (by rw [← hxl, he, hlq])
      refine ⟨?_, hxl⟩
      simp only [List.mem_append, List.mem_singleton]
      rintro (h | h)
      · exact hxa h
      · exact hxne h
  · intro d
    rw [poolAt_serveQ]
    by_cases hdd : d = s1.current_difficulty
    · rw [if_pos hdd]
      exact (hI.2 _).sublist (removeFirst_sublist _ _)
    · rw [if_neg hdd]
      exact hI.2 d

theorem gnq_poolInv (fuel : Nat) (f : Nat → List Question) (p : Nat) (lvl : String → Nat)
    (s : GameState) (hf : GoodFetch lvl f) (hI : PoolInv lvl s) :
    PoolInv lvl (get_next_question_aux fuel f p s) := by
  induction fuel generalizing s with
  | zero => simpa [get_next_question_aux]
  | succ fuel ih =>
    cases hE : ensurePool f s with
    | error halted =>
      rw [gnq_aux_error hE]
      have hh := ensurePool_error hE
      subst hh
      exact poolInv_congr rfl rfl hI
    | ok s1 =>
      have hIs1 : PoolInv lvl s1 := ensurePool_poolInv hf hI hE
      cases hA : (availableOf s1)[p % (availableOf s1).length]? with
      | some q =>
        rw [gnq_aux_ok_some hE hA]
        exact serveQ_poolInv hIs1 (getElem_mod_some hA)
      | none =>
        by_cases hlt : s1.current_difficulty < 3
        · rw [gnq_aux_ok_none_lt hE hA hlt]
          exact ih _ (poolInv_congr rfl rfl hIs1)
        · rw [gnq_aux_ok_none_ge hE hA hlt]
          exact poolInv_congr rfl rfl hIs1

theorem filter_unasked_nil (l : List Question) :
    l.filter (fun q => decide (q.id ∉ ([] : List String))) = l :=
  List.filter_eq_self.mpr (by intro a _; simp)

theorem reset_game_shape (f : Nat → List Question) (p : Nat) (s : GameState) :
    (reset_game f p s).score = 0 ∧
    (reset_game f p s).current_difficulty = 1 ∧
    (reset_game f p s).game_started = true ∧
    ((reset_game f p s).asked_questions_ids = [] ∨
      ∃ q, (reset_game f p s).current_question_data = some q ∧
        (reset_game f p s).asked_questions_ids = [q.id]) := by
  unfold reset_game get_next_question
  cases hnil : f 1 with
  | nil =>
    have hE : ensurePool f startedState =
        .error { startedState with feedback_message := msgCouldNotFetch, current_question_data := none } := by
      unfold ensurePool
      simp [poolAt, dlookup, startedState, initState, hnil]
    rw [show (3 : Nat) = 2 + 1 from rfl, gnq_aux_error hE]
    simp [startedState, initState]
  | cons q0 rest =>
    have hE : ensurePool f startedState =
        .ok ⟨1, 0, "", [], none, [(1, q0 :: rest)], true⟩ := by
      unfold ensurePool
      simp [poolAt, dlookup, startedState, initState, hnil, dinsert,
        filter_unasked_nil (q0 :: rest)]
    have hAv : availableOf ⟨1, 0, "", [], none, [(1, q0 :: rest)], true⟩ = q0 :: rest := by
      unfold availableOf
      simp [poolAt, dlookup]
    have hmod : p % (q0 :: rest).length < (q0 :: rest).length :=
      Nat.mod_lt _ (by simp)
    have hsome : (availableOf ⟨1, 0, "", [], none, [(1, q0 :: rest)], true⟩)[p %
        (availableOf ⟨1, 0, "", [], none, [(1, q0 :: rest)], true⟩).length]? =
        some ((q0 :: rest).get ⟨p % (q0 :: rest).length, hmod⟩) := by
      rw [hAv]
      rw [List.getElem?_eq_getElem hmod]
      simp
    rw [show (3 : Nat) = 2 + 1 from rfl, gnq_aux_ok_some hE hsome]
    refine ⟨rfl, rfl, rfl, Or.inr ⟨_, rfl, rfl⟩⟩

theorem get_next_question_d_mono (f : Nat → List Question) (p : Nat) (s : GameState) :
    s.current_difficulty ≤ (get_next_question f p s).current_difficulty :=
  gnq_d_mono 3 f p s

theorem get_next_question_one_le (f : Nat → List Question) (p : Nat) (s : GameState)
    (h1 : 1 ≤ s.current_difficulty) : 1 ≤ (get_next_question f p s).current_difficulty :=
  le_trans h1 (gnq_d_mono 3 f p s)

theorem get_next_question_d_le3 (f : Nat → List Question) (p : Nat) (s : GameState)
    (h : s.current_difficulty ≤ 3) : (get_next_question f p s).current_difficulty ≤ 3 :=
  gnq_d_le3 3 f p s h

theorem exhaustedAt_mp {f : Nat → List Question} (t s : GameState)
    (hd : t.current_difficulty = s.current_difficulty)
    (hp : t.all_fetched_questions = s.all_fetched_questions)
    (ha : t.asked_questions_ids = s.asked_questions_ids)
    (h : exhaustedAt f t) : exhaustedAt f s :=
  (exhaustedAt_congr hd hp ha).mp h

theorem runSteps_cons (op : Step) (ops : List Step) (s : GameState) :
    runSteps (op :: ops) s = runSteps ops (stepState op s) := rfl

theorem runSteps_inv (P : GameState → Prop) (Q : Step → Prop)
    (hstep : ∀ st s, Q st → P s → P (stepState st s)) :
    ∀ ops s, (∀ st ∈ ops, Q st) → P s → P (runSteps ops s) := by
  intro ops
  induction ops with
  | nil => exact fun s _ h => h
  | cons op ops ih =>
    intro s hQ h
    rw [runSteps_cons]
    exact ih _ (fun st hst => hQ st (List.mem_cons_of_mem _ hst))
      (hstep op s (hQ op (List.mem_cons_self _ _)) h)

theorem step_d_bounds (st : Step) (s : GameState)
    (h : 1 ≤ s.current_difficulty ∧ s.current_difficulty ≤ 3) :
    1 ≤ (stepState st s).current_difficulty ∧ (stepState st s).current_difficulty ≤ 3 := by
  obtain ⟨h1, h3⟩ := h
  cases st with
  | reset f p =>
    obtain ⟨-, hd, -⟩ := reset_game_shape f p s
    simp only [stepState]
    omega
  | next f p =>
    exact ⟨le_trans h1 (gnq_d_mono 3 f p s), gnq_d_le3 3 f p s h3⟩
  | submit f p inp =>
    cases hcq : s.current_question_data with
    | none => simpa [stepState, submit_answer, hcq] using ⟨h1, h3⟩
    | some qd =>
      simp only [stepState, submit_answer, hcq]
      by_cases hg : grade_answer inp qd.answer = true
      · simp only [if_pos hg]
        refine ⟨get_next_question_one_le f p _ ?_, get_next_question_d_le3 f p _ ?_⟩
        · show 1 ≤ min (s.current_difficulty + 1) 3
          omega
        · show min (s.current_difficulty + 1) 3 ≤ 3
          omega
      · simp only [if_neg hg]
        exact ⟨get_next_question_one_le f p _ h1, get_next_question_d_le3 f p _ h3⟩

theorem step_asked_nodup (st : Step) (s : GameState) (h : s.asked_questions_ids.Nodup) :
    (stepState st s).asked_questions_ids.Nodup := by
  cases st with
  | reset f p =>
    exact gnq_asked_nodup 3 f p startedState (by simp [startedState, initState])
  | next f p =>
    exact gnq_asked_nodup 3 f p s h
  | submit f p inp =>
    cases hcq : s.current_question_data with
    | none => simpa [stepState, submit_answer, hcq]
    | some qd =>
      simp only [stepState, submit_answer, hcq]
      by_cases hg : grade_answer inp qd.answer = true
      · simp only [if_pos hg]
        exact gnq_asked_nodup 3 f p _ h
      · simp only [if_neg hg]
        exact gnq_asked_nodup 3 f p _ h

theorem poolInv_startedState (lvl : String → Nat) : PoolInv lvl startedState := by
  constructor
  · intro d q hq
    simp [poolAt, dlookup, startedState, initState] at hq
  · intro d
    simp [poolAt, dlookup, startedState, initState]

theorem step_poolInv (lvl : String → Nat) (st : Step) (s : GameState)
    (hQ : GoodStep lvl st) (h : PoolInv lvl s) : PoolInv lvl (stepState st s) := by
  cases st with
  | reset f p =>
    exact gnq_poolInv 3 f p lvl startedState hQ (poolInv_startedState lvl)
  | next f p =>
    exact gnq_poolInv 3 f p lvl s hQ h
  | submit f p inp =>
    cases hcq : s.current_question_data with
    | none => simpa [stepState, submit_answer, hcq]
    | some qd =>
      simp only [stepState, submit_answer, hcq]
      by_cases hg : grade_answer inp qd.answer = true
      · simp only [if_pos hg]
        exact gnq_poolInv 3 f p lvl _ hQ (poolInv_congr rfl rfl h)
      · simp only [if_neg hg]
        exact gnq_poolInv 3 f p lvl _ hQ (poolInv_congr rfl rfl h)

theorem reachable_d_bounds (s : GameState) (h : Reachable s) :
    1 ≤ s.current_difficulty ∧ s.current_difficulty ≤ 3 := by
  obtain ⟨ops, rfl⟩ := h
  exact runSteps_inv _ (fun _ => True) (fun st s _ hp => step_d_bounds st s hp) ops initState
    (fun _ _ => trivial) (by simp [initState])

theorem reachable_asked_nodup (s : GameState) (h : Reachable s) :
    s.asked_questions_ids.Nodup := by
  obtain ⟨ops, rfl⟩ := h
  exact runSteps_inv _ (fun _ => True) (fun st s _ hp => step_asked_nodup st s hp) ops initState
    (fun _ _ => trivial) (by simp [initState])

theorem reachable_poolInv (lvl : String → Nat) (s : GameState)
    (h : ReachableVia (GoodStep lvl) s) : PoolInv lvl s := by
  obtain ⟨ops, hQ, rfl⟩ := h
  refine runSteps_inv _ (GoodStep lvl) (fun st s hq hp => step_poolInv lvl st s hq hp) ops
    initState hQ ?_
  constructor
  · intro d q hq
    simp [poolAt, dlookup, initState] at hq
  · intro d
    simp [poolAt, dlookup, initState]

theorem submit_d_change_cause (f : Nat → List Question) (p : Nat) (inp : String)
    (s : GameState) (qd : Question) (hcq : s.current_question_data = some qd)
    (hch : (submit_answer f p inp s).current_difficulty ≠ s.current_difficulty) :
    grade_answer inp qd.answer = true ∨ exhaustedAt f s := by
  by_cases hg : grade_answer inp qd.answer = true
  · exact Or.inl hg
  · right
    simp only [submit_answer, hcq, if_neg hg] at hch
    have hx := gnq_d_change_exhausted 3 f p _ hch
    exact exhaustedAt_mp { s with feedback_message := msgIncorrect qd.answer, current_question_data := some qd } s rfl rfl rfl hx

theorem submit_d_mono (f : Nat → List Question) (p : Nat) (inp : String) (s : GameState)
    (h3 : s.current_difficulty ≤ 3) :
    s.current_difficulty ≤ (submit_answer f p inp s).current_difficulty := by
  cases hcq : s.current_question_data with
  | none => simp [submit_answer, hcq]
  | some qd =>
    simp only [submit_answer, hcq]
    by_cases hg : grade_answer inp qd.answer = true
    · simp only [if_pos hg]
      refine le_trans (show s.current_difficulty ≤ min (s.current_difficulty + 1) 3 by omega) ?_
      exact get_next_question_d_mono f p { s with score := s.score + 1, feedback_message := msgCorrect, current_difficulty := min (s.current_difficulty + 1) 3, current_question_data := some qd }
    · simp only [if_neg hg]
      exact get_next_question_d_mono f p { s with feedback_message := msgIncorrect qd.answer, current_question_data := some qd }

theorem reset_game_fetch_fail (f : Nat → List Question) (p : Nat) (s : GameState)
    (hf : f 1 = []) :
    reset_game f p s =
      { startedState with feedback_message := msgCouldNotFetch, current_question_data := none } := by
  unfold reset_game get_next_question
  have hE : ensurePool f startedState =
      .error { startedState with feedback_message := msgCouldNotFetch, current_question_data := none } := by
    unfold ensurePool
    simp [poolAt, dlookup, startedState, initState, hf]
  rw [show (3 : Nat) = 2 + 1 from rfl, gnq_aux_error hE]

/-- C1 (counterexample): with an adapter returning an empty batch at every
level, a `selectNext` call from a freshly started session terminates, but it
does NOT leave the engine in the GameOver state: the game-over flag is
untouched (`game_started` stays `true`), the difficulty does not move, and
the engine instead records the fetch-failure message with
`current_question_data` cleared. -/
theorem claim_empty_adapter_cex :
    (get_next_question emptyFetch 0 startedState).game_started = true ∧
    (get_next_question emptyFetch 0 startedState).current_question_data = none ∧
    (get_next_question emptyFetch 0 startedState).current_difficulty = 1 ∧
    (get_next_question emptyFetch 0 startedState).feedback_message = msgCouldNotFetch := by
  decide

/-- C1 (amended): with an adapter returning an empty batch at every level, a
single `selectNext` call from any state with difficulty in {1,2,3}
terminates (any fuel beyond 3 gives the same result), advances the
difficulty at most 2 levels beyond the start (never above 3, never
downward), and whenever it does mark the game over it also clears
`currentQuestion` and sits at difficulty 3; but it need not reach GameOver —
when the empty batch is consulted directly the engine reports a fetch
failure and leaves the game flag unchanged. -/
theorem claim_empty_adapter_amended (p : Nat) (s : GameState)
    (h1 : 1 ≤ s.current_difficulty) (h3 : s.current_difficulty ≤ 3) :
    (∀ k, get_next_question_aux (3 + k) emptyFetch p s = get_next_question emptyFetch p s) ∧
    s.current_difficulty ≤ (get_next_question emptyFetch p s).current_difficulty ∧
    (get_next_question emptyFetch p s).current_difficulty ≤ min (s.current_difficulty + 2) 3 ∧
    (s.game_started = true → (get_next_question emptyFetch p s).game_started = false →
      (get_next_question emptyFetch p s).current_question_data = none ∧
      (get_next_question emptyFetch p s).current_difficulty = 3) := by
  refine ⟨fun k => gnq_fuel_ge3 k emptyFetch p s h1 h3,
    get_next_question_d_mono emptyFetch p s, ?_, ?_⟩
  · have := get_next_question_d_le3 emptyFetch p s h3
    omega
  · intro hs hflag
    have hne : (get_next_question emptyFetch p s).game_started ≠ s.game_started := by
      rw [hflag, hs]
      simp
    obtain ⟨-, hcq, hd⟩ := gnq_flag 3 emptyFetch p s h3 hne
    exact ⟨hcq, hd⟩

/-- C1 (witness for the amended theorem): the fuel-stability and
monotonicity conclusions instantiated at the started session. -/
theorem claim_empty_adapter_witness :
    get_next_question_aux (3 + 2) emptyFetch 0 startedState =
      get_next_question emptyFetch 0 startedState ∧
    startedState.current_difficulty ≤
      (get_next_question emptyFetch 0 startedState).current_difficulty :=
  ⟨(claim_empty_adapter_amended 0 startedState (by decide) (by decide)).1 2,
   (claim_empty_adapter_amended 0 startedState (by decide) (by decide)).2.1⟩

/-- C3 (counterexample): the Adapter does not return a failure value
distinguishable from a successful empty batch — the Python function returns
the SAME value, an empty list, on transport failure, on a non-success
response code, and on a successful response with no results (where no error
is shown). -/
theorem claim_fetch_result_cex :
    (fetch_questions_for_difficulty (fun t => t) 1 FetchOutcome.transportFailure).1 = [] ∧
    (fetch_questions_for_difficulty (fun t => t) 1 (FetchOutcome.response 1 [])).1 = [] ∧
    (fetch_questions_for_difficulty (fun t => t) 1 (FetchOutcome.response 0 [])).1 = [] ∧
    (fetch_questions_for_difficulty (fun t => t) 1 (FetchOutcome.response 0 [])).2 = none :=
  ⟨rfl, rfl, rfl, rfl⟩

/-- C3 (amended): for every supported difficulty level the fetch returns an
empty list both on transport failure and on a non-success response code —
the same return value as a successful empty batch — and signals the failure
only through a displayed error message: the network message on transport
failure, and a message carrying the response code when the remote source
reports a non-success code. -/
theorem claim_fetch_errors_amended (u : String → String) (d : Nat) (code : Nat)
    (rs : List RawQuestion) (hd : (DIFFICULTY_MAP d).isSome = true) (hc : code ≠ 0) :
    fetch_questions_for_difficulty u d FetchOutcome.transportFailure =
      ([], some ErrMsg.network) ∧
    fetch_questions_for_difficulty u d (FetchOutcome.response code rs) =
      ([], some (ErrMsg.apiError code)) := by
  cases hm : DIFFICULTY_MAP d with
  | none => simp [hm] at hd
  | some str =>
    constructor
    · simp [fetch_questions_for_difficulty, hm]
    · simp [fetch_questions_for_difficulty, hm, hc]

/-- C3 (witness for the amended theorem): level 1, response code 1. -/
theorem claim_fetch_errors_witness :
    fetch_questions_for_difficulty (fun t => t) 1 FetchOutcome.transportFailure =
      ([], some ErrMsg.network) ∧
    fetch_questions_for_difficulty (fun t => t) 1 (FetchOutcome.response 1 []) =
      ([], some (ErrMsg.apiError 1)) :=
  claim_fetch_errors_amended (fun t => t) 1 1 [] (by decide) (by decide)

/-- C4 (counterexample): with nothing obtainable at levels 1 and 2 because
the Adapter returns EMPTY batches there, and exactly one unasked question
available at level 3, `selectNext` from difficulty 1 does not advance: it
hits the empty-fetch early return at level 1, serves nothing, and leaves the
difficulty at 1. -/
theorem claim_advance_scenario_cex :
    onlyHardFetch 1 = [] ∧ onlyHardFetch 2 = [] ∧ onlyHardFetch 3 = [qHard] ∧
    qHard.id ∉ startedState.asked_questions_ids ∧
    (get_next_question onlyHardFetch 0 startedState).current_question_data = none ∧
    (get_next_question onlyHardFetch 0 startedState).current_difficulty = 1 := by
  decide

/-- C4 (amended): when the Adapter returns non-empty batches at levels 1 and
2 whose questions are all already asked and a batch with one unasked
question at level 3, `selectNext` from difficulty 1 advances through 2 to 3,
serves that question, and leaves `currentDifficulty` at 3. -/
theorem claim_advance_scenario_amended :
    (get_next_question staleFetch 0 staleState).current_question_data = some qHard ∧
    (get_next_question staleFetch 0 staleState).current_difficulty = 3 ∧
    (get_next_question staleFetch 0 staleState).asked_questions_ids =
      ["id-a", "id-b", "id-c"] := by
  decide

/-- C5 (counterexample): `reset_game` concludes by fetching and serving the
first question of the new game, so immediately after a reset completes the
asked-ids list is NOT empty whenever a question could be served — it already
holds the id of the question being displayed (score and difficulty are 0 and
1 as claimed). -/
theorem claim_reset_cex :
    (reset_game oneEasyFetch 0 junkState).asked_questions_ids = [qOne.id] ∧
    (reset_game oneEasyFetch 0 junkState).asked_questions_ids ≠ [] ∧
    (reset_game oneEasyFetch 0 junkState).score = 0 ∧
    (reset_game oneEasyFetch 0 junkState).current_difficulty = 1 := by
  decide

/-- C5 (amended): immediately after `reset_game` completes, whatever the
prior state and the Adapter, the score is 0 and the difficulty is 1; the
asked-ids list is empty when no first question could be served, and
otherwise contains exactly the id of the question served by the reset's
immediate `selectNext`. -/
theorem claim_reset_amended (f : Nat → List Question) (p : Nat) (s : GameState) :
    (reset_game f p s).score = 0 ∧ (reset_game f p s).current_difficulty = 1 ∧
    ((reset_game f p s).asked_questions_ids = [] ∨
      ∃ q, (reset_game f p s).current_question_data = some q ∧
        (reset_game f p s).asked_questions_ids = [q.id]) := by
  obtain ⟨h1, h2, -, h4⟩ := reset_game_shape f p s
  exact ⟨h1, h2, h4⟩

/-- C6: in every reachable session state the difficulty lies in {1,2,3};
neither `selectNext` nor `submitAnswer` ever lowers it (so it can return to
1 only through an explicit reset, which always yields 1); a `selectNext`
changes it only on pool exhaustion at the current level, and a
`submitAnswer` changes it only when the answer was graded correct or the
pool at the current level was exhausted. -/
theorem claim_difficulty_policy :
    (∀ s, Reachable s → 1 ≤ s.current_difficulty ∧ s.current_difficulty ≤ 3) ∧
    (∀ f p s, s.current_difficulty ≤ (get_next_question f p s).current_difficulty) ∧
    (∀ f p inp s, s.current_difficulty ≤ 3 →
      s.current_difficulty ≤ (submit_answer f p inp s).current_difficulty) ∧
    (∀ f p s, (get_next_question f p s).current_difficulty ≠ s.current_difficulty →
      exhaustedAt f s) ∧
    (∀ f p inp s qd, s.current_question_data = some qd →
      (submit_answer f p inp s).current_difficulty ≠ s.current_difficulty →
      grade_answer inp qd.answer = true ∨ exhaustedAt f s) ∧
    (∀ f p s, (reset_game f p s).current_difficulty = 1) :=
  ⟨reachable_d_bounds,
   get_next_question_d_mono,
   submit_d_mono,
   fun f p s => gnq_d_change_exhausted 3 f p s,
   fun f p inp s qd hcq hch => submit_d_change_cause f p inp s qd hcq hch,
   fun f p s => (reset_game_shape f p s).2.1⟩

/-- C6 (witness): the difficulty bounds instantiated at the initial state,
reachable by the empty trace. -/
theorem claim_difficulty_policy_witness :
    1 ≤ initState.current_difficulty ∧ initState.current_difficulty ≤ 3 :=
  claim_difficulty_policy.1 initState ⟨[], rfl⟩

/-- C8: along every operation sequence, a question id is never appended to
`asked_questions_ids` twice — the list is duplicate-free in every reachable
state (serving always filters against the asked list first). -/
theorem claim_no_duplicate_asked (s : GameState) (h : Reachable s) :
    s.asked_questions_ids.Nodup :=
  reachable_asked_nodup s h

/-- C8 (witness): the asked list after a reset that served one question. -/
theorem claim_no_duplicate_asked_witness :
    (runSteps [Step.reset twoEasyFetch 0] initState).asked_questions_ids.Nodup :=
  claim_no_duplicate_asked (runSteps [Step.reset twoEasyFetch 0] initState)
    ⟨[Step.reset twoEasyFetch 0], rfl⟩

/-- C7 (counterexample): the disjointness of pools and asked ids fails on a
batch containing two questions with the same id — serving one of them
appends the id to the asked list but removes only the first copy from the
pool, so the reachable state after one reset holds `qOne` in the level-1
pool while `qOne.id` is already asked. -/
theorem claim_pools_disjoint_cex :
    qOne ∈ poolAt (runSteps [Step.reset dupFetch 0] initState) 1 ∧
    qOne.id ∈ (runSteps [Step.reset dupFetch 0] initState).asked_questions_ids := by
  decide

/-- C7 (amended): provided the Adapter is well-behaved on ids — no batch
contains two entries sharing an id, and an id never occurs at two different
difficulty levels (as with the real source, whose ids embed the difficulty
string) — then in every reachable session state a question id present in
the asked list does not appear in any difficulty pool. -/
theorem claim_pools_disjoint_amended (lvl : String → Nat) (s : GameState)
    (h : ReachableVia (GoodStep lvl) s) :
    ∀ d q, q ∈ poolAt s d → q.id ∉ s.asked_questions_ids :=
  fun d q hq => ((reachable_poolInv lvl s h).1 d q hq).1

/-- C7 (witness for the amended theorem): after a reset with a well-behaved
two-question batch, the question left in the pool is not among the asked
ids. -/
theorem claim_pools_disjoint_witness :
    decide (qTwo.id ∈ (runSteps [Step.reset twoEasyFetch 0] initState).asked_questions_ids) =
      false := by
  refine decide_eq_false ?_
  refine claim_pools_disjoint_amended levelOfW _ ⟨[Step.reset twoEasyFetch 0], ?_, rfl⟩ 1 qTwo ?_
  · intro st hst
    have hst' : st = Step.reset twoEasyFetch 0 := by simpa using hst
    subst hst'
    intro d
    constructor
    · show (twoEasyFetch d).Pairwise _
      unfold twoEasyFetch
      by_cases hd : d = 1
      · rw [if_pos hd]
        decide
      · rw [if_neg hd]
        exact List.Pairwise.nil
    · intro q hq
      show levelOfW q.id = d
      simp only [stepFetch, twoEasyFetch] at hq
      by_cases hd : d = 1
      · rw [hd]
        rfl
      · rw [if_neg hd] at hq
        cases hq
  · decide

/-- C9: when the Adapter fails with a network error on the first fetch of a
new game, the engine survives (the operation is a total function): after
`selectNext` returns, no question is current, the status message tells the
player to retry by restarting, the session remains in play
(`game_started = true`, the game is not marked over) at difficulty 1 with
score 0, and the network-error message was the one displayed by the fetch. -/
theorem claim_network_error_graceful (u : String → String) (oc : Nat → FetchOutcome)
    (p : Nat) (s : GameState) (h : oc 1 = FetchOutcome.transportFailure) :
    (reset_game (adapterOf u oc) p s).current_question_data = none ∧
    (reset_game (adapterOf u oc) p s).feedback_message = msgCouldNotFetch ∧
    (reset_game (adapterOf u oc) p s).game_started = true ∧
    (reset_game (adapterOf u oc) p s).score = 0 ∧
    (reset_game (adapterOf u oc) p s).current_difficulty = 1 ∧
    (fetch_questions_for_difficulty u 1 (oc 1)).2 = some ErrMsg.network := by
  have hf : adapterOf u oc 1 = [] := by
    simp [adapterOf, h, fetch_questions_for_difficulty, DIFFICULTY_MAP]
  rw [reset_game_fetch_fail (adapterOf u oc) p s hf]
  refine ⟨rfl, rfl, rfl, rfl, rfl, ?_⟩
  rw [h]
  rfl

/-- C9 (witness): a concrete all-failing outcome oracle. -/
theorem claim_network_error_witness :
    (reset_game (adapterOf (fun t => t) (fun _ => FetchOutcome.transportFailure)) 0
      initState).current_question_data = none ∧
    (reset_game (adapterOf (fun t => t) (fun _ => FetchOutcome.transportFailure)) 0
      initState).game_started = true :=
  ⟨(claim_network_error_graceful (fun t => t) (fun _ => FetchOutcome.transportFailure) 0
      initState rfl).1,
   (claim_network_error_graceful (fun t => t) (fun _ => FetchOutcome.transportFailure) 0
      initState rfl).2.2.1⟩
